import Mathlib

/-!
Verification of the DocuWare migration upload script.

This file shallowly embeds the core of `uploading-docs-to-docuware.js`:
the staging table (SQLite table `upload`), the single-attempt uploader
`uploadToDocuware`, the row processor `processRow`, the pending-row query
`getPendingRows`, the success-path writer `updateDbRecord`, the main upload
loop of `main` (lines 223-257 of the source), and the cleanup performed in
the `finally` block (`logoffDocuware` followed by `closeDb`).

Conventions of the embedding:
- A SQLite row of the `upload` table is a `Row`; the table is a `List Row`.
- Network and filesystem effects of one upload attempt are summarised by an
  `HttpResult` oracle value: the attempt either produced a 2xx response with
  an optional `Id` in the body, failed with an HTTP error status, failed with
  an ENOENT filesystem error, or failed with some other (non-response) error.
  A run consumes oracle values `net 0, net 1, ...`, one per upload attempt,
  and relogin results `relog 0, relog 1, ...`, one per relogin attempt.
- The thrown `SessionExpiredError` is modelled as an `Except` error value
  propagating out of `processRow`, exactly as the exception propagates to the
  `catch` of `main`'s loop.
- JavaScript truthiness of the response `Id` (`response.data?.Id || null`)
  is modelled by `truthyId` on `Option Int`.
- `jsToLower` (character-wise `Char.toLower`) models `key.toLowerCase()`;
  the bookkeeping key names are ASCII, where the two functions agree.
- Console output, the `LOOP_PAUSE` sleep, and HTTP headers are not modelled:
  they do not affect control flow or the staging store.
- `updateDbRecord`'s own SQLite failure path is not modelled (the staging
  store is a pure in-memory list); accordingly the non-session branch of the
  `catch` in `main`'s loop (`JsError.other`) is present but never produced.
-/

namespace DocuwareMigration

/-- One row of the SQLite staging table `upload` (schema created by the
preparation script: `obj_id TEXT PRIMARY KEY, archive_guid TEXT, ...,
docuware_id INTEGER DEFAULT 0, docuware_timestamp TEXT DEFAULT NULL`).
The spec names these `object_id`, `destination_cabinet_id`, `source_path`,
`remote_document_id`, `uploaded_at`; `extra` holds the remaining index
columns (for example `x` and `y`). -/
structure Row where
  obj_id : String
  archive_guid : String
  path : String
  docuware_id : Int
  docuware_timestamp : Option String
  extra : List (String × Option String)
deriving DecidableEq, Repr, Inhabited

/-- One entry of the `Fields` array sent in the `document` JSON part. -/
structure Field where
  FieldName : String
  Item : String
  ItemElementName : String
deriving DecidableEq, Repr

/-- Model of JavaScript `key.toLowerCase()` (the keys compared in the source
are ASCII, where `Char.toLower` agrees with JavaScript). -/
def jsToLower (s : String) : String :=
  ⟨s.data.map Char.toLower⟩

/-- The staging-only bookkeeping keys excluded from the field list
(source line 81). -/
def bookkeepingKeys : List String :=
  ["obj_id", "archive_guid", "path", "docuware_id", "docuware_timestamp"]

/-- The field list built by `uploadToDocuware` (source lines 80-88): filter
the entries of `indexData` dropping any key whose lower-cased name is a
bookkeeping key, map each survivor to a `Field` with `String(value ?? '')`,
then push an explicit `obj_id` field (`objIdVal` models
`String(indexData.obj_id)`). -/
def fieldsToSend (indexData : List (String × Option String)) (objIdVal : String) : List Field :=
  ((indexData.filter
      (fun kv => !(bookkeepingKeys.contains (jsToLower kv.1)))).map
    (fun kv => ⟨kv.1, kv.2.getD "", "String"⟩))
  ++ [⟨"obj_id", objIdVal, "String"⟩]

/-- Oracle value summarising what the filesystem and the remote service did
during one call of `uploadToDocuware`: a 2xx response carrying an optional
body `Id`, an HTTP error response with its status, an ENOENT error from
`fs.readFile`, or any other error (no response) with its `message`. -/
inductive HttpResult where
  | ok (id : Option Int)
  | httpError (status : Nat)
  | enoent
  | otherError (msg : String)
deriving DecidableEq, Repr

/-- JavaScript truthiness of the optional response `Id`: `null`/missing and
`0` are falsy. -/
def truthyId : Option Int → Bool
  | some n => n != 0
  | none => false

/-- The value produced by one call of `uploadToDocuware`: the returned
object with a `docId` field, or the returned object with `error` and
`reason` fields, or the thrown `SessionExpiredError`. -/
inductive UploadResult where
  | result (docId : Option Int)
  | errResult (error : String) (reason : String)
  | sessionExpired (msg : String)
deriving DecidableEq, Repr

/-- Embedding of `uploadToDocuware` (source lines 72-131), restricted to its
outcome classification. On a 2xx response it returns an object whose
`docId` is `response.data?.Id || null`; in the catch block it checks
status 401 first (throws `SessionExpiredError`), then ENOENT, then maps an
HTTP error status (409 and 413 specially), and otherwise returns a general
error with `error.message || 'Unknown upload error'`. -/
def uploadToDocuware (filePath : String) (att : HttpResult) : UploadResult :=
  match att with
  | .ok id => .result (if truthyId id then id else none)
  | .httpError status =>
      if status = 401 then
        .sessionExpired ("Session expired during upload for " ++ filePath)
      else if status = 409 then
        .errResult "skipped_duplicate" "HTTP 409 Conflict"
      else if status = 413 then
        .errResult "too_large" "HTTP 413 Request Entity Too Large"
      else
        .errResult ("http_" ++ toString status) ("HTTP " ++ toString status)
  | .enoent => .errResult "file_not_found" "File not found"
  | .otherError msg =>
      .errResult "general" (if msg.isEmpty then "Unknown upload error" else msg)

/-- Embedding of `updateDbRecord` (source lines 135-144): the single SQL
statement `UPDATE upload SET docuware_id = ?, docuware_timestamp = ? WHERE
obj_id = ?`, which sets both columns of every row matching `objId` in one
update. -/
def updateDbRecord (db : List Row) (objId : String) (docuwareId : Int)
    (timestamp : String) : List Row :=
  db.map (fun r =>
    if r.obj_id = objId then
      { r with docuware_id := docuwareId, docuware_timestamp := some timestamp }
    else r)

/-- The per-record console outcome written by `processRow`: the SUCCESS,
SKIPPED or FAILED line. -/
inductive RowLog where
  | success (docId : Int)
  | skipped
  | failed (reason : String)
deriving DecidableEq, Repr

/-- Errors that can escape `processRow` into the catch of `main`'s loop:
the `SessionExpiredError` thrown by `uploadToDocuware`, or any other error.
In this embedding only `sessionExpired` is ever produced, because the
staging store is pure (see the file header). -/
inductive JsError where
  | sessionExpired (msg : String)
  | other (msg : String)
deriving DecidableEq, Repr

/-- Embedding of `processRow` (source lines 166-184): call the uploader; if
the result has a truthy `docId`, write it with the current timestamp through
`updateDbRecord` and log SUCCESS; on `skipped_duplicate` log SKIPPED; on any
other result log FAILED with `uploadResult?.reason || 'Unknown failure'`.
A thrown `SessionExpiredError` propagates uncaught. -/
def processRow (db : List Row) (row : Row) (att : HttpResult) (now : String) :
    Except JsError (List Row × RowLog) :=
  match uploadToDocuware row.path att with
  | .sessionExpired msg => .error (.sessionExpired msg)
  | .result (some docId) =>
      if docId != 0 then
        .ok (updateDbRecord db row.obj_id docId now, .success docId)
      else
        .ok (db, .failed "Unknown failure")
  | .result none => .ok (db, .failed "Unknown failure")
  | .errResult code reason =>
      if code = "skipped_duplicate" then
        .ok (db, .skipped)
      else
        .ok (db, .failed (if reason.isEmpty then "Unknown failure" else reason))

/-- Ordering used by `ORDER BY obj_id` (ascending text order). -/
def rowLe (a b : Row) : Prop :=
  a.obj_id ≤ b.obj_id

instance : DecidableRel rowLe := fun a b =>
  inferInstanceAs (Decidable (a.obj_id ≤ b.obj_id))

instance : IsTotal Row rowLe :=
  ⟨fun a b => le_total a.obj_id b.obj_id⟩

instance : IsTrans Row rowLe :=
  ⟨fun _ _ _ hab hbc => le_trans hab hbc⟩

/-- The WHERE clause of `getPendingRows`: rows with `docuware_id = 0`. -/
def pendingFilter (db : List Row) : List Row :=
  db.filter (fun r => r.docuware_id == 0)

/-- Embedding of `getPendingRows` (source lines 157-164): the query
`SELECT * FROM upload WHERE docuware_id = 0 ORDER BY obj_id`, modelled as a
filter followed by a sort on `obj_id`. -/
def getPendingRows (db : List Row) : List Row :=
  List.insertionSort rowLe (pendingFilter db)

/-- State of the upload loop of `main` (source lines 223-257): the staging
store, the loop index `i`, the number of upload attempts performed so far
(used to index the `net` oracle), the number of relogin attempts performed
so far (used to index the `relog` oracle), and the `obj_id`s of the records
attempted so far, in order. -/
structure LoopState where
  db : List Row
  i : Nat
  attempts : Nat
  relogins : Nat
  attemptedIds : List String
deriving DecidableEq, Repr

/-- Loop state on entry to the upload loop. -/
def initState (db : List Row) : LoopState :=
  ⟨db, 0, 0, 0, []⟩

/-- One pass of the `while (i < totalPending)` body of `main` (source lines
224-257). `rows` is the snapshot returned by `getPendingRows`; `currentTry`
is re-declared to `1` at the top of every pass, exactly as in the source
(line 227). On a normal `processRow` return, `i` advances. On a thrown
`SessionExpiredError` with `currentTry == 1` (which, `currentTry` being
re-declared each pass, is every time), a relogin is attempted: on relogin
success the same record is retried (no advance); on relogin failure
`i = totalPending` aborts the loop. Any other error logs and advances. -/
def step (rows : List Row) (net : Nat → HttpResult) (relog : Nat → Bool)
    (now : String) (s : LoopState) : LoopState :=
  let row := rows.getD s.i default
  let currentTry : Nat := 1
  match processRow s.db row (net s.attempts) now with
  | .ok (db', _lg) =>
      { s with db := db', i := s.i + 1, attempts := s.attempts + 1,
               attemptedIds := s.attemptedIds ++ [row.obj_id] }
  | .error e =>
      match e with
      | .sessionExpired _ =>
          if currentTry = 1 then
            if relog s.relogins then
              { s with attempts := s.attempts + 1, relogins := s.relogins + 1,
                       attemptedIds := s.attemptedIds ++ [row.obj_id] }
            else
              { s with i := rows.length, attempts := s.attempts + 1,
                       relogins := s.relogins + 1,
                       attemptedIds := s.attemptedIds ++ [row.obj_id] }
          else
            { s with i := s.i + 1, attempts := s.attempts + 1,
                     attemptedIds := s.attemptedIds ++ [row.obj_id] }
      | .other _ =>
          { s with i := s.i + 1, attempts := s.attempts + 1,
                   attemptedIds := s.attemptedIds ++ [row.obj_id] }

/-- Fuel-indexed iteration of `step` under the loop guard `i < totalPending`.
Fuel is needed because the source loop need not terminate (see the theorem
on unbounded relogins below); with enough fuel the result is the state in
which the loop guard first failed. -/
def runLoop (rows : List Row) (net : Nat → HttpResult) (relog : Nat → Bool)
    (now : String) : Nat → LoopState → LoopState
  | 0, s => s
  | fuel + 1, s =>
      if s.i < rows.length then
        runLoop rows net relog now fuel (step rows net relog now s)
      else s

/-- Result of one whole run of `main` up to (not including) the `finally`
block: the staging store contents, the records attempted in order, and the
process exit code (1 when the initial login failed). -/
structure RunResult where
  finalDb : List Row
  attemptedIds : List String
  exitCode : Nat
deriving DecidableEq, Repr

/-- Embedding of `main` (source lines 204-258) up to the `finally` block:
initial login (`logins 0`; `process.exit(1)` on failure), fetch the pending
rows, then run the upload loop. Relogin attempt `k` inside the loop reuses
`getDocuwareSession`, modelled as `logins (k + 1)`. -/
def runMain (db0 : List Row) (logins : Nat → Bool) (net : Nat → HttpResult)
    (now : String) (fuel : Nat) : RunResult :=
  if logins 0 then
    let rows := getPendingRows db0
    let final := runLoop rows net (fun k => logins (k + 1)) now fuel (initState db0)
    ⟨final.db, final.attemptedIds, 0⟩
  else
    ⟨db0, [], 1⟩

/-- Embedding of `logoffDocuware` (source lines 55-65): a no-op when no
cookies are present; otherwise the logoff request is issued and any error
is caught and logged (`console.warn`), never rethrown. The returned pair
records (request issued?, request succeeded?). -/
def logoffDocuware (cookieCount : Nat) (netOk : Bool) :
    Except String (Bool × Bool) :=
  if cookieCount == 0 then
    .ok (false, true)
  else
    match (if netOk then Except.ok () else Except.error "request failed" :
        Except String Unit) with
    | .ok _ => .ok (true, true)
    | .error _ => .ok (true, false)

/-- Embedding of `closeDb` (source lines 186-193): a no-op when `db` is
null; otherwise `db.close` is called and its error, if any, is delivered to
the logging callback, never thrown. The returned pair records
(close attempted?, close succeeded?). -/
def closeDb (dbOpen : Bool) (closeOk : Bool) : Except String (Bool × Bool) :=
  if dbOpen then .ok (true, closeOk) else .ok (false, true)

/-- What the `finally` block of `main` did. -/
structure CleanupTrace where
  logoffRequested : Bool
  logoffSucceeded : Bool
  closeRequested : Bool
  closeSucceeded : Bool
deriving DecidableEq, Repr

/-- Embedding of the `finally` block of `main` (source lines 262-268):
`await logoffDocuware(); closeDb(db);` in sequence, in the `Except` monad,
so that an error escaping the first call would skip the second. -/
def finallyBlock (cookieCount : Nat) (logoffNetOk : Bool) (dbOpen : Bool)
    (closeOk : Bool) : Except String CleanupTrace := do
  let lg ← logoffDocuware cookieCount logoffNetOk
  let cl ← closeDb dbOpen closeOk
  pure ⟨lg.1, lg.2, cl.1, cl.2⟩

/-- The staging-store invariant of the spec: `uploaded_at` is non-null if
and only if `remote_document_id != 0`, for every row. -/
def StoreInv (db : List Row) : Prop :=
  ∀ r ∈ db, (r.docuware_timestamp ≠ none ↔ r.docuware_id ≠ 0)

/-- Concrete staging record used by witnesses and counterexamples,
mirroring the scenario record of the spec. -/
def rowA : Row :=
  ⟨"A1", "C", "/docs/a.pdf", 0, none, [("Customer", some "Acme")]⟩

/-! ### Helper lemmas -/

/-- Lower-casing the literal key name is the identity. -/
lemma jsToLower_obj_id : jsToLower "obj_id" = "obj_id" := by decide

/-- Every field produced from `indexData` (before the final push) has a
field name whose lower-cased form is not a bookkeeping key. -/
lemma contains_eq_false_of_mem_mapped {d : List (String × Option String)}
    {f : Field}
    (hf : f ∈ (d.filter
        (fun kv => !(bookkeepingKeys.contains (jsToLower kv.1)))).map
      (fun kv => (⟨kv.1, kv.2.getD "", "String"⟩ : Field))) :
    bookkeepingKeys.contains (jsToLower f.FieldName) = false := by
  rcases List.mem_map.mp hf with ⟨kv, hkv, rfl⟩
  rcases List.mem_filter.mp hkv with ⟨_, hp⟩
  simpa using hp

/-! ### Claim theorems: the uploader -/

/-- C2. For every single upload attempt, the returned outcome is determined
by the failure cause exactly as the spec maps it: HTTP 401 yields the
thrown `SessionExpiredError` (AuthExpired), HTTP 409 yields the
skipped-duplicate outcome, HTTP 413 yields the too-large rejection, any
other HTTP error status `s` yields the rejection code `http_<s>`, an
ENOENT file error yields the file-not-found rejection, any other error
yields a general failure, and a successful response with a service-assigned
identifier yields the success result carrying it. -/
theorem claim2_outcome_classification (fp : String) :
    uploadToDocuware fp (.httpError 401)
        = .sessionExpired ("Session expired during upload for " ++ fp) ∧
    uploadToDocuware fp .enoent = .errResult "file_not_found" "File not found" ∧
    uploadToDocuware fp (.httpError 409)
        = .errResult "skipped_duplicate" "HTTP 409 Conflict" ∧
    uploadToDocuware fp (.httpError 413)
        = .errResult "too_large" "HTTP 413 Request Entity Too Large" ∧
    (∀ s : Nat, s ≠ 401 → s ≠ 409 → s ≠ 413 →
      uploadToDocuware fp (.httpError s)
        = .errResult ("http_" ++ toString s) ("HTTP " ++ toString s)) ∧
    (∀ msg : String, ∃ m : String,
      uploadToDocuware fp (.otherError msg) = .errResult "general" m) ∧
    (∀ id : Int, id ≠ 0 →
      uploadToDocuware fp (.ok (some id)) = .result (some id)) := by
  refine ⟨rfl, rfl, rfl, rfl, ?_, ?_, ?_⟩
  · intro s h1 h9 h13
    simp only [uploadToDocuware, if_neg h1, if_neg h9, if_neg h13]
  · intro msg
    exact ⟨_, rfl⟩
  · intro id hid
    simp [uploadToDocuware, truthyId, hid]

/-- Witness for C2: the generic-status and success clauses at HTTP 500 and
identifier 5. -/
theorem claim2_outcome_classification_witness :
    uploadToDocuware "/docs/a.pdf" (.httpError 500)
        = .errResult ("http_" ++ toString 500) ("HTTP " ++ toString 500) ∧
    uploadToDocuware "/docs/a.pdf" (.ok (some 5)) = .result (some 5) :=
  ⟨(claim2_outcome_classification "/docs/a.pdf").2.2.2.2.1 500
      (by decide) (by decide) (by decide),
   (claim2_outcome_classification "/docs/a.pdf").2.2.2.2.2.2 5 (by decide)⟩

/-- C5. The field list sent on upload excludes the five staging bookkeeping
keys and contains exactly one `obj_id` field (counted both exactly and up
to letter case), appended as the last element, for every `indexData` —
including when `obj_id` also appears as a key of `indexData`. -/
theorem claim5_field_list (d : List (String × Option String)) (objIdVal : String) :
    (fieldsToSend d objIdVal).countP (fun f => f.FieldName == "obj_id") = 1 ∧
    (fieldsToSend d objIdVal).countP
        (fun f => jsToLower f.FieldName == "obj_id") = 1 ∧
    (fieldsToSend d objIdVal).getLast? = some ⟨"obj_id", objIdVal, "String"⟩ ∧
    (fieldsToSend d objIdVal).dropLast.all
        (fun f => !(bookkeepingKeys.contains (jsToLower f.FieldName))) = true := by
  unfold fieldsToSend
  refine ⟨?_, ?_, List.getLast?_concat _, ?_⟩
  · rw [List.countP_append]
    have hz : (List.countP (fun f => f.FieldName == "obj_id")
        ((d.filter
            (fun kv => !(bookkeepingKeys.contains (jsToLower kv.1)))).map
          (fun kv => (⟨kv.1, kv.2.getD "", "String"⟩ : Field)))) = 0 := by
      rw [List.countP_eq_zero]
      intro f hf hbeq
      have hc := contains_eq_false_of_mem_mapped hf
      have hname : f.FieldName = "obj_id" := by
        exact_mod_cast beq_iff_eq.mp hbeq
      rw [hname] at hc
      exact absurd hc (by decide)
    rw [hz]
    simp [List.countP_cons]
  · rw [List.countP_append]
    have hz : (List.countP (fun f => jsToLower f.FieldName == "obj_id")
        ((d.filter
            (fun kv => !(bookkeepingKeys.contains (jsToLower kv.1)))).map
          (fun kv => (⟨kv.1, kv.2.getD "", "String"⟩ : Field)))) = 0 := by
      rw [List.countP_eq_zero]
      intro f hf hbeq
      have hc := contains_eq_false_of_mem_mapped hf
      have hname : jsToLower f.FieldName = "obj_id" := by
        exact_mod_cast beq_iff_eq.mp hbeq
      rw [hname] at hc
      exact absurd hc (by decide)
    rw [hz]
    simp [List.countP_cons, jsToLower_obj_id]
  · rw [List.dropLast_concat, List.all_eq_true]
    intro f hf
    have hc := contains_eq_false_of_mem_mapped hf
    simpa using hc

/-- C10. The exclusion of bookkeeping keys from the upload field list is
case-insensitive: an `indexData` entry whose lower-cased key is a
bookkeeping key contributes nothing to the field list, whatever its letter
casing. -/
theorem claim10_case_insensitive_exclusion (k : String) (v : Option String)
    (d : List (String × Option String)) (objIdVal : String)
    (h : bookkeepingKeys.contains (jsToLower k) = true) :
    fieldsToSend ((k, v) :: d) objIdVal = fieldsToSend d objIdVal := by
  unfold fieldsToSend
  rw [List.filter_cons_of_neg (by simpa using h)]

/-- Witness for C10: the upper-cased key "PATH" and the mixed-case key
"Obj_Id" are both excluded. -/
theorem claim10_case_insensitive_exclusion_witness :
    fieldsToSend [("PATH", some "/x")] "A1" = fieldsToSend [] "A1" ∧
    fieldsToSend [("Obj_Id", some "z"), ("Customer", some "Acme")] "A1"
      = fieldsToSend [("Customer", some "Acme")] "A1" :=
  ⟨claim10_case_insensitive_exclusion "PATH" (some "/x") [] "A1" (by decide),
   claim10_case_insensitive_exclusion "Obj_Id" (some "z")
     [("Customer", some "Acme")] "A1" (by decide)⟩

/-- C9. When the HTTP request succeeds but the response body lacks a truthy
`Id` (missing, null, or 0), the attempt is a failure: the uploader returns
a null `docId`, and `processRow` logs FAILED with reason "Unknown failure"
and leaves the staging store unchanged, so the record stays pending. -/
theorem claim9_missing_id_failure (fp : String) (id : Option Int)
    (db : List Row) (row : Row) (now : String)
    (h : truthyId id = false) :
    uploadToDocuware fp (.ok id) = .result none ∧
    processRow db row (.ok id) now = .ok (db, .failed "Unknown failure") := by
  constructor
  · simp [uploadToDocuware, h]
  · simp [processRow, uploadToDocuware, h]

/-- Witness for C9: a body `Id` of 0 and a missing body `Id`. -/
theorem claim9_missing_id_failure_witness :
    processRow [rowA] rowA (.ok (some 0)) "t"
      = .ok ([rowA], .failed "Unknown failure") ∧
    uploadToDocuware "/docs/a.pdf" (.ok none) = .result none :=
  ⟨(claim9_missing_id_failure "/docs/a.pdf" (some 0) [rowA] rowA "t" (by decide)).2,
   (claim9_missing_id_failure "/docs/a.pdf" none [] rowA "t" (by decide)).1⟩

/-! ### Helper lemmas about `processRow`, `step` and `runLoop` -/

/-- An upload attempt answered with HTTP 401 makes `processRow` propagate
the thrown `SessionExpiredError`. -/
lemma processRow_httpError_401 (db : List Row) (row : Row) (now : String) :
    processRow db row (.httpError 401) now
      = .error (.sessionExpired ("Session expired during upload for " ++ row.path)) :=
  rfl

/-- An upload attempt answered with a truthy body `Id` makes `processRow`
perform exactly one `updateDbRecord` and log SUCCESS. -/
lemma processRow_success (db : List Row) (row : Row) (now : String)
    {id : Int} (h : id ≠ 0) :
    processRow db row (.ok (some id)) now
      = .ok (updateDbRecord db row.obj_id id now, .success id) := by
  simp [processRow, uploadToDocuware, truthyId, h]

/-- Only HTTP 401 can make `processRow` propagate an error. -/
lemma processRow_ne_error (db : List Row) (row : Row) (att : HttpResult)
    (now : String) (h : att ≠ .httpError 401) :
    ∃ p, processRow db row att now = .ok p := by
  cases att with
  | ok id =>
      cases id with
      | none => exact ⟨_, rfl⟩
      | some n =>
          by_cases hn : n = 0
          · subst hn; exact ⟨_, rfl⟩
          · exact ⟨_, processRow_success db row now hn⟩
  | httpError s =>
      have hs : s ≠ 401 := fun hh => h (by rw [hh])
      by_cases h9 : s = 409
      · subst h9; exact ⟨_, rfl⟩
      by_cases h13 : s = 413
      · subst h13; exact ⟨_, rfl⟩
      simp only [processRow, uploadToDocuware, if_neg hs, if_neg h9, if_neg h13]
      split
      · exact ⟨_, rfl⟩
      · exact ⟨_, rfl⟩
  | enoent => exact ⟨_, rfl⟩
  | otherError m =>
      simp only [processRow, uploadToDocuware]
      split
      · exact ⟨_, rfl⟩
      · exact ⟨_, rfl⟩

/-- A pass whose `processRow` returns normally stores the new table and
advances the index. -/
lemma step_ok {rows : List Row} {net : Nat → HttpResult} {relog : Nat → Bool}
    {now : String} {s : LoopState} {db' : List Row} {lg : RowLog}
    (h : processRow s.db (rows.getD s.i default) (net s.attempts) now
      = .ok (db', lg)) :
    step rows net relog now s
      = { s with db := db', i := s.i + 1, attempts := s.attempts + 1,
                 attemptedIds := s.attemptedIds
                   ++ [(rows.getD s.i default).obj_id] } := by
  unfold step
  simp only [h]

/-- A pass whose `processRow` throws `SessionExpiredError` and whose relogin
succeeds leaves the index unchanged: the record is retried. -/
lemma step_auth_relog_true {rows : List Row} {net : Nat → HttpResult}
    {relog : Nat → Bool} {now : String} {s : LoopState} {m : String}
    (h : processRow s.db (rows.getD s.i default) (net s.attempts) now
      = .error (.sessionExpired m))
    (hr : relog s.relogins = true) :
    step rows net relog now s
      = { s with attempts := s.attempts + 1, relogins := s.relogins + 1,
                 attemptedIds := s.attemptedIds
                   ++ [(rows.getD s.i default).obj_id] } := by
  unfold step
  simp only [h]
  rw [if_pos trivial, if_pos hr]

/-- A pass whose `processRow` throws `SessionExpiredError` and whose relogin
fails sets the index to the row count, aborting the loop. -/
lemma step_auth_relog_false {rows : List Row} {net : Nat → HttpResult}
    {relog : Nat → Bool} {now : String} {s : LoopState} {m : String}
    (h : processRow s.db (rows.getD s.i default) (net s.attempts) now
      = .error (.sessionExpired m))
    (hr : relog s.relogins = false) :
    step rows net relog now s
      = { s with i := rows.length, attempts := s.attempts + 1,
                 relogins := s.relogins + 1,
                 attemptedIds := s.attemptedIds
                   ++ [(rows.getD s.i default).obj_id] } := by
  unfold step
  simp only [h]
  rw [if_pos trivial, if_neg (by rw [hr]; exact Bool.false_ne_true)]

/-- Once the index reaches the row count the loop guard fails and the state
no longer changes, whatever the fuel. -/
lemma runLoop_of_done {rows : List Row} {net : Nat → HttpResult}
    {relog : Nat → Bool} {now : String} {fuel : Nat} {s : LoopState}
    (h : rows.length ≤ s.i) :
    runLoop rows net relog now fuel s = s := by
  cases fuel with
  | zero => rfl
  | succ n => simp [runLoop, Nat.not_lt.mpr h]

/-- With one pending record, every upload answered HTTP 401 and every
relogin succeeding, each loop pass performs one more relogin and never
advances: the index stays 0 and the store is untouched, however much fuel
is spent. -/
lemma runLoop_all401 (now : String) :
    ∀ (fuel : Nat) (s : LoopState), s.i = 0 →
      (runLoop [rowA] (fun _ => .httpError 401) (fun _ => true) now fuel s).i = 0 ∧
      (runLoop [rowA] (fun _ => .httpError 401) (fun _ => true) now fuel s).relogins
        = s.relogins + fuel ∧
      (runLoop [rowA] (fun _ => .httpError 401) (fun _ => true) now fuel s).db
        = s.db := by
  intro fuel
  induction fuel with
  | zero => intro s h; exact ⟨h, rfl, rfl⟩
  | succ n ih =>
      intro s h
      have hlt : s.i < ([rowA] : List Row).length := by rw [h]; decide
      have hstep : step [rowA] (fun _ => .httpError 401) (fun _ => true) now s
          = { s with attempts := s.attempts + 1, relogins := s.relogins + 1,
                     attemptedIds := s.attemptedIds
                       ++ [(([rowA] : List Row).getD s.i default).obj_id] } :=
        step_auth_relog_true (processRow_httpError_401 s.db _ now) rfl
      have heq : runLoop [rowA] (fun _ => .httpError 401) (fun _ => true) now
          (n + 1) s
          = runLoop [rowA] (fun _ => .httpError 401) (fun _ => true) now n
            (step [rowA] (fun _ => .httpError 401) (fun _ => true) now s) := by
        rw [runLoop, if_pos hlt]
      rw [heq, hstep]
      have := ih { s with attempts := s.attempts + 1, relogins := s.relogins + 1,
                          attemptedIds := s.attemptedIds
                            ++ [(([rowA] : List Row).getD s.i default).obj_id] } h
      refine ⟨this.1, ?_, this.2.2⟩
      rw [this.2.1]
      show s.relogins + 1 + n = s.relogins + (n + 1)
      omega

/-! ### Claim theorems: the orchestrator loop -/

/-- C1 (refuted; evaluates the code at the failing input). The claim says an
AuthExpired outcome triggers at most one relogin attempt per record, a
second consecutive AuthExpired being a permanent failure. In the code
`currentTry` is re-declared to 1 at the top of every loop pass, so the
one-retry guard never fires: with a single pending record whose every
upload attempt is answered HTTP 401 and with every relogin succeeding, `n`
loop passes perform `n` relogin attempts for that same record (the index
never advances, the record is never recorded as a permanent failure). -/
theorem claim1_relogin_unbounded (n : Nat) :
    (runLoop [rowA] (fun _ => .httpError 401) (fun _ => true) "t" n
      (initState [rowA])).relogins = n ∧
    (runLoop [rowA] (fun _ => .httpError 401) (fun _ => true) "t" n
      (initState [rowA])).i = 0 ∧
    (runLoop [rowA] (fun _ => .httpError 401) (fun _ => true) "t" n
      (initState [rowA])).db = [rowA] := by
  have h := runLoop_all401 "t" n (initState [rowA]) rfl
  exact ⟨by simpa [initState] using h.2.1, h.1, h.2.2⟩

/-- The invariant is preserved by the one SQL update of the success path:
it sets a non-zero `docuware_id` and a non-null timestamp together. -/
lemma storeInv_updateDbRecord {db : List Row} {q : String} {id : Int}
    {now : String} (hinv : StoreInv db) (hid : id ≠ 0) :
    StoreInv (updateDbRecord db q id now) := by
  intro r' hr'
  rcases List.mem_map.mp hr' with ⟨r, hr, rfl⟩
  by_cases hq : r.obj_id = q
  · simp [hq, hid]
  · simp only [if_neg hq]
    exact hinv r hr

/-- C4. On every Success outcome `processRow` persists `docuware_id` and
`docuware_timestamp` in the one update of `updateDbRecord`, keyed by
`obj_id`, with a non-zero identifier; consequently every staging-store
result `processRow` can produce preserves the invariant that the timestamp
is non-null exactly when `docuware_id` is non-zero — no row is ever left
with only one of the two fields set. -/
theorem claim4_success_update_invariant (db : List Row) (row : Row)
    (att : HttpResult) (now : String) (db' : List Row) (lg : RowLog)
    (hinv : StoreInv db)
    (h : processRow db row att now = .ok (db', lg)) :
    StoreInv db' ∧
    ∀ id : Int, lg = .success id →
      id ≠ 0 ∧ db' = updateDbRecord db row.obj_id id now := by
  unfold processRow at h
  split at h
  · exact absurd h (by simp)
  · split at h
    next hcond =>
      simp only [Except.ok.injEq, Prod.mk.injEq] at h
      obtain ⟨rfl, rfl⟩ := h
      have hz : _ ≠ (0 : Int) := bne_iff_ne.mp hcond
      refine ⟨storeInv_updateDbRecord hinv hz, ?_⟩
      intro id hid
      injection hid with hid
      subst hid
      exact ⟨hz, rfl⟩
    next =>
      simp only [Except.ok.injEq, Prod.mk.injEq] at h
      obtain ⟨rfl, rfl⟩ := h
      exact ⟨hinv, fun id hid => by simp at hid⟩
  · simp only [Except.ok.injEq, Prod.mk.injEq] at h
    obtain ⟨rfl, rfl⟩ := h
    exact ⟨hinv, fun id hid => by simp at hid⟩
  · split at h
    · simp only [Except.ok.injEq, Prod.mk.injEq] at h
      obtain ⟨rfl, rfl⟩ := h
      exact ⟨hinv, fun id hid => by simp at hid⟩
    · simp only [Except.ok.injEq, Prod.mk.injEq] at h
      obtain ⟨rfl, rfl⟩ := h
      exact ⟨hinv, fun id hid => by simp at hid⟩

/-- Witness for C4: the invariant holds on the store after a successful
upload of the scenario record with identifier 5. -/
theorem claim4_success_update_invariant_witness :
    StoreInv (updateDbRecord [rowA] rowA.obj_id 5 "t") :=
  (claim4_success_update_invariant [rowA] rowA (.ok (some 5)) "t"
    (updateDbRecord [rowA] rowA.obj_id 5 "t") (.success 5)
    (by intro r hr; simp only [List.mem_singleton] at hr; subst hr; decide)
    rfl).1

/-- Shape of `processRow` when the uploader returns an error object. -/
lemma processRow_errResult (db : List Row) (row : Row) (att : HttpResult)
    (now : String) (code reason : String)
    (hup : uploadToDocuware row.path att = .errResult code reason) :
    processRow db row att now
      = if code = "skipped_duplicate" then .ok (db, .skipped)
        else .ok (db, .failed
          (if reason.isEmpty then "Unknown failure" else reason)) := by
  unfold processRow
  rw [hup]

/-- C6. On every attempt ending in SkippedDuplicate, Rejected or
GeneralFailure (all the error-object outcomes of the uploader),
`processRow` leaves the staging store untouched — the row stays pending —
and the loop pass advances to the next record. -/
theorem claim6_no_mutation_on_failure :
    (∀ (db : List Row) (row : Row) (att : HttpResult) (now : String)
        (code reason : String),
      uploadToDocuware row.path att = .errResult code reason →
      ∃ lg : RowLog, processRow db row att now = .ok (db, lg) ∧
        (lg = .skipped ∨ ∃ m : String, lg = .failed m)) ∧
    (∀ (rows : List Row) (net : Nat → HttpResult) (relog : Nat → Bool)
        (now : String) (s : LoopState) (db' : List Row) (lg : RowLog),
      s.i < rows.length →
      processRow s.db (rows.getD s.i default) (net s.attempts) now
        = .ok (db', lg) →
      (step rows net relog now s).i = s.i + 1
        ∧ (step rows net relog now s).db = db') := by
  constructor
  · intro db row att now code reason hup
    rw [processRow_errResult db row att now code reason hup]
    by_cases hc : code = "skipped_duplicate"
    · rw [if_pos hc]
      exact ⟨.skipped, rfl, Or.inl rfl⟩
    · rw [if_neg hc]
      exact ⟨_, rfl, Or.inr ⟨_, rfl⟩⟩
  · intro rows net relog now s db' lg _ h
    rw [step_ok h]
    exact ⟨rfl, rfl⟩

/-- Witness for C6: an HTTP 409 conflict on the scenario record leaves the
store unchanged and the pass advances. -/
theorem claim6_no_mutation_on_failure_witness :
    (∃ lg : RowLog, processRow [rowA] rowA (.httpError 409) "t"
        = .ok ([rowA], lg) ∧ (lg = .skipped ∨ ∃ m : String, lg = .failed m)) ∧
    (step [rowA] (fun _ => .httpError 409) (fun _ => true) "t"
        (initState [rowA])).i = 0 + 1 ∧
    (step [rowA] (fun _ => .httpError 409) (fun _ => true) "t"
        (initState [rowA])).db = [rowA] :=
  ⟨claim6_no_mutation_on_failure.1 [rowA] rowA (.httpError 409) "t"
      "skipped_duplicate" "HTTP 409 Conflict" rfl,
   claim6_no_mutation_on_failure.2 [rowA] (fun _ => .httpError 409)
      (fun _ => true) "t" (initState [rowA]) [rowA] .skipped
      (by decide) rfl⟩

/-- The `finally` block always completes without an escaping error, because
`logoffDocuware` swallows its request failure and `closeDb` delivers its
failure to a logging callback: the resulting trace is a pure function of
the inputs. -/
lemma finallyBlock_eq (cc : Nat) (lOk dOpen cOk : Bool) :
    finallyBlock cc lOk dOpen cOk
      = .ok ⟨!(cc == 0), ((cc == 0) || lOk), dOpen, (!dOpen || cOk)⟩ := by
  unfold finallyBlock logoffDocuware closeDb
  cases h : (cc == 0) <;> cases lOk <;> cases dOpen <;>
    simp [h, Except.bind, Bind.bind, pure, Except.pure]

/-- C7. If the relogin after an AuthExpired fails, the loop index is set to
the row count: the run attempts no further records, leaves the staging
store as it was, and no amount of further fuel changes the state. And
whatever happened, the `finally` cleanup completes without an escaping
error, issuing the logoff request whenever cookies are present and the
store close whenever the store is open — a failure of either never prevents
the other from being attempted. -/
theorem claim7_relogin_failure_abort_cleanup :
    (∀ (rows : List Row) (net : Nat → HttpResult) (relog : Nat → Bool)
        (now : String) (s : LoopState) (m : String),
      processRow s.db (rows.getD s.i default) (net s.attempts) now
        = .error (.sessionExpired m) →
      relog s.relogins = false →
      (step rows net relog now s).i = rows.length ∧
      (step rows net relog now s).db = s.db ∧
      (step rows net relog now s).attemptedIds
        = s.attemptedIds ++ [(rows.getD s.i default).obj_id] ∧
      ∀ fuel : Nat,
        runLoop rows net relog now fuel (step rows net relog now s)
          = step rows net relog now s) ∧
    (∀ (cookieCount : Nat) (logoffNetOk dbOpen closeOk : Bool),
      ∃ t : CleanupTrace,
        finallyBlock cookieCount logoffNetOk dbOpen closeOk = .ok t ∧
        (cookieCount ≠ 0 → t.logoffRequested = true) ∧
        (dbOpen = true → t.closeRequested = true)) := by
  constructor
  · intro rows net relog now s m h hr
    rw [step_auth_relog_false h hr]
    refine ⟨rfl, rfl, rfl, ?_⟩
    intro fuel
    exact runLoop_of_done (Nat.le_refl _)
  · intro cc lOk dOpen cOk
    refine ⟨_, finallyBlock_eq cc lOk dOpen cOk, ?_, ?_⟩
    · intro hne
      have hb : (cc == 0) = false := by simpa using hne
      rw [hb]
      rfl
    · intro hd
      exact hd

/-- Witness for C7: one pending record, the upload answered HTTP 401, the
relogin failing; and the cleanup with cookies present, a failing logoff
request, the store open, and a failing close. -/
theorem claim7_relogin_failure_abort_cleanup_witness :
    ((step [rowA] (fun _ => .httpError 401) (fun _ => false) "t"
        (initState [rowA])).i = ([rowA] : List Row).length ∧
     (step [rowA] (fun _ => .httpError 401) (fun _ => false) "t"
        (initState [rowA])).db = (initState [rowA]).db ∧
     (step [rowA] (fun _ => .httpError 401) (fun _ => false) "t"
        (initState [rowA])).attemptedIds
       = (initState [rowA]).attemptedIds
           ++ [(([rowA] : List Row).getD (initState [rowA]).i default).obj_id] ∧
     ∀ fuel : Nat,
       runLoop [rowA] (fun _ => .httpError 401) (fun _ => false) "t" fuel
           (step [rowA] (fun _ => .httpError 401) (fun _ => false) "t"
             (initState [rowA]))
         = step [rowA] (fun _ => .httpError 401) (fun _ => false) "t"
             (initState [rowA])) ∧
    (∃ t : CleanupTrace, finallyBlock 1 false true false = .ok t ∧
      ((1 : Nat) ≠ 0 → t.logoffRequested = true) ∧
      (true = true → t.closeRequested = true)) :=
  ⟨claim7_relogin_failure_abort_cleanup.1 [rowA] (fun _ => .httpError 401)
      (fun _ => false) "t" (initState [rowA])
      ("Session expired during upload for " ++ rowA.path)
      (processRow_httpError_401 [rowA] rowA "t") rfl,
   claim7_relogin_failure_abort_cleanup.2 1 false true false⟩

/-- Under an oracle that never answers HTTP 401 every pass returns normally
and advances, so with enough fuel the loop's final index is the row count
and the records attempted are exactly the remaining rows, in order. -/
lemma runLoop_noAuth (rows : List Row) (net : Nat → HttpResult)
    (relog : Nat → Bool) (now : String)
    (hnet : ∀ k, net k ≠ .httpError 401) :
    ∀ (fuel : Nat) (s : LoopState), s.i ≤ rows.length →
      rows.length ≤ s.i + fuel →
      (runLoop rows net relog now fuel s).i = rows.length ∧
      (runLoop rows net relog now fuel s).attemptedIds
        = s.attemptedIds ++ (rows.drop s.i).map Row.obj_id := by
  intro fuel
  induction fuel with
  | zero =>
      intro s h1 h2
      have hi : s.i = rows.length := le_antisymm h1 (by simpa using h2)
      refine ⟨hi, ?_⟩
      show s.attemptedIds = s.attemptedIds ++ (rows.drop s.i).map Row.obj_id
      rw [hi, List.drop_length]
      simp
  | succ n ih =>
      intro s h1 h2
      by_cases hlt : s.i < rows.length
      · obtain ⟨⟨db', lg⟩, hp⟩ := processRow_ne_error s.db
          (rows.getD s.i default) (net s.attempts) now (hnet s.attempts)
        have heq : runLoop rows net relog now (n + 1) s
            = runLoop rows net relog now n (step rows net relog now s) := by
          rw [runLoop, if_pos hlt]
        rw [heq, step_ok hp]
        have hres := ih
          { s with db := db', i := s.i + 1, attempts := s.attempts + 1,
                   attemptedIds := s.attemptedIds
                     ++ [(rows.getD s.i default).obj_id] }
          hlt (show rows.length ≤ (s.i + 1) + n by omega)
        refine ⟨hres.1, ?_⟩
        rw [hres.2]
        show (s.attemptedIds ++ [(rows.getD s.i default).obj_id])
            ++ (rows.drop (s.i + 1)).map Row.obj_id
          = s.attemptedIds ++ (rows.drop s.i).map Row.obj_id
        have hgetD : rows.getD s.i default = rows.get ⟨s.i, hlt⟩ := by
          rw [List.getD_eq_getElem?_getD, List.getElem?_eq_getElem hlt]
          rfl
        rw [List.drop_eq_getElem_cons hlt, List.map_cons, hgetD,
          List.append_assoc, List.singleton_append]
        rfl
      · have hi : s.i = rows.length := le_antisymm h1 (Nat.le_of_not_lt hlt)
        have heq : runLoop rows net relog now (n + 1) s = s := by
          rw [runLoop, if_neg hlt]
        rw [heq, hi, List.drop_length]
        simp

/-- C8. The pending-record fetch returns exactly the staging rows whose
`docuware_id` is 0 (as a permutation of the filter, with a membership
characterisation), sorted by `obj_id`; and under an oracle free of session
expiry the orchestrator attempts exactly those rows, sequentially, in that
order. -/
theorem claim8_pending_query :
    (∀ db : List Row, List.Perm (getPendingRows db)
        (db.filter (fun r => r.docuware_id == 0))) ∧
    (∀ db : List Row, List.Sorted rowLe (getPendingRows db)) ∧
    (∀ (db : List Row) (r : Row),
      r ∈ getPendingRows db ↔ r ∈ db ∧ r.docuware_id = 0) ∧
    (∀ (db : List Row) (net : Nat → HttpResult) (relog : Nat → Bool)
        (now : String) (fuel : Nat),
      (∀ k, net k ≠ .httpError 401) →
      (getPendingRows db).length ≤ fuel →
      (runLoop (getPendingRows db) net relog now fuel
          (initState db)).attemptedIds
        = (getPendingRows db).map Row.obj_id) := by
  refine ⟨fun db => List.perm_insertionSort rowLe (pendingFilter db),
    fun db => List.sorted_insertionSort rowLe (pendingFilter db), ?_, ?_⟩
  · intro db r
    unfold getPendingRows pendingFilter
    rw [(List.perm_insertionSort rowLe
      (db.filter (fun r => r.docuware_id == 0))).mem_iff]
    rw [List.mem_filter]
    simp
  · intro db net relog now fuel hnet hfuel
    have h := runLoop_noAuth (getPendingRows db) net relog now hnet fuel
      (initState db) (Nat.zero_le _)
      (show (getPendingRows db).length ≤ 0 + fuel by omega)
    rw [h.2]
    show [] ++ ((getPendingRows db).drop 0).map Row.obj_id
      = (getPendingRows db).map Row.obj_id
    simp

/-- Witness for C8: the in-order processing clause on one pending record
with a successful oracle. -/
theorem claim8_pending_query_witness :
    (runLoop (getPendingRows [rowA]) (fun _ => .ok (some 7)) (fun _ => true)
        "t" 1 (initState [rowA])).attemptedIds
      = (getPendingRows [rowA]).map Row.obj_id :=
  claim8_pending_query.2.2.2 [rowA] (fun _ => .ok (some 7)) (fun _ => true)
    "t" 1 (fun _ h => HttpResult.noConfusion h) (by decide)

/-- Under an oracle whose every answer is a success with a non-zero
identifier, a run with enough fuel leaves no pending row: every row whose
`obj_id` still occurs among the unprocessed rows gets its `docuware_id` set
to a non-zero value before the loop ends. -/
lemma runLoop_allSuccess (rows : List Row) (net : Nat → HttpResult)
    (relog : Nat → Bool) (now : String)
    (hnet : ∀ k, ∃ id : Int, net k = .ok (some id) ∧ id ≠ 0) :
    ∀ (fuel : Nat) (s : LoopState),
      (∀ r ∈ s.db, r.docuware_id = 0 →
        r.obj_id ∈ (rows.drop s.i).map Row.obj_id) →
      rows.length ≤ s.i + fuel →
      ∀ r ∈ (runLoop rows net relog now fuel s).db, r.docuware_id ≠ 0 := by
  intro fuel
  induction fuel with
  | zero =>
      intro s hinv h2 r hr h0
      have hdrop : rows.drop s.i = [] :=
        List.drop_eq_nil_of_le (by simpa using h2)
      have hmem := hinv r hr h0
      rw [hdrop] at hmem
      simp at hmem
  | succ n ih =>
      intro s hinv h2
      by_cases hlt : s.i < rows.length
      · obtain ⟨id, hneq, hid⟩ := hnet s.attempts
        have hp : processRow s.db (rows.getD s.i default) (net s.attempts) now
            = .ok (updateDbRecord s.db (rows.getD s.i default).obj_id id now,
                   .success id) := by
          rw [hneq]
          exact processRow_success _ _ _ hid
        have heq : runLoop rows net relog now (n + 1) s
            = runLoop rows net relog now n (step rows net relog now s) := by
          rw [runLoop, if_pos hlt]
        rw [heq, step_ok hp]
        apply ih
        · intro r' hr' h0
          rcases List.mem_map.mp hr' with ⟨r, hrmem, hfr⟩
          by_cases hq : r.obj_id = (rows.getD s.i default).obj_id
          · rw [if_pos hq] at hfr
            subst hfr
            simp at h0
            exact absurd h0 hid
          · rw [if_neg hq] at hfr
            subst hfr
            have hmem := hinv r hrmem h0
            rw [List.drop_eq_getElem_cons hlt, List.map_cons] at hmem
            have hgetD : rows.getD s.i default = rows.get ⟨s.i, hlt⟩ := by
              rw [List.getD_eq_getElem?_getD, List.getElem?_eq_getElem hlt]
              rfl
            rcases List.mem_cons.mp hmem with h | h
            · rw [hgetD] at hq
              exact absurd h hq
            · exact h
        · show rows.length ≤ (s.i + 1) + n
          omega
      · have heq : runLoop rows net relog now (n + 1) s = s := by
          rw [runLoop, if_neg hlt]
        rw [heq]
        intro r hr h0
        have hdrop : rows.drop s.i = [] :=
          List.drop_eq_nil_of_le (Nat.le_of_not_lt hlt)
        have hmem := hinv r hr h0
        rw [hdrop] at hmem
        simp at hmem

/-- Shape of `runMain` when the initial login succeeds. -/
lemma runMain_login_true {db0 : List Row} {logins : Nat → Bool}
    {net : Nat → HttpResult} {now : String} {fuel : Nat}
    (h : logins 0 = true) :
    runMain db0 logins net now fuel
      = ⟨(runLoop (getPendingRows db0) net (fun k => logins (k + 1)) now fuel
            (initState db0)).db,
         (runLoop (getPendingRows db0) net (fun k => logins (k + 1)) now fuel
            (initState db0)).attemptedIds, 0⟩ := by
  unfold runMain
  rw [h, if_pos rfl]

/-- C3 (refuted: the claim as frozen). Two successive runs over the same
staging store, with nothing added in between, can still upload on the
second run: a record whose first-run attempt was rejected (here HTTP 500)
stays pending by design, so the second run attempts it again — one attempt,
not zero. -/
theorem claim3_counterexample :
    (runMain (runMain [rowA] (fun _ => true) (fun _ => .httpError 500)
        "t" 1).finalDb
      (fun _ => true) (fun _ => .httpError 500) "t" 1).attemptedIds
      = ["A1"] ∧
    (runMain (runMain [rowA] (fun _ => true) (fun _ => .httpError 500)
        "t" 1).finalDb
      (fun _ => true) (fun _ => .httpError 500) "t" 1).attemptedIds
      ≠ [] := by
  constructor
  · rfl
  · decide

/-- C3 (amended). If the first run's login succeeds, it has fuel for all its
pending records and every one of its upload attempts returns a success with
a non-zero identifier, then the first run leaves no pending record, and a
second run over the resulting staging store — under any oracle whatsoever —
performs zero upload attempts. (Records whose attempts end skipped,
rejected or failed remain pending by design and are re-attempted, which is
what refutes the unconditional claim.) -/
theorem claim3_amended_idempotence (db0 : List Row) (logins : Nat → Bool)
    (net : Nat → HttpResult) (now : String) (fuel : Nat)
    (hsucc : ∀ k, ∃ id : Int, net k = .ok (some id) ∧ id ≠ 0)
    (hlogin : logins 0 = true)
    (hfuel : (getPendingRows db0).length ≤ fuel) :
    getPendingRows (runMain db0 logins net now fuel).finalDb = [] ∧
    ∀ (logins' : Nat → Bool) (net' : Nat → HttpResult) (now' : String)
        (fuel' : Nat),
      (runMain (runMain db0 logins net now fuel).finalDb logins' net' now'
        fuel').attemptedIds = [] := by
  have hpend : ∀ r ∈ (runLoop (getPendingRows db0) net
      (fun k => logins (k + 1)) now fuel (initState db0)).db,
      r.docuware_id ≠ 0 := by
    apply runLoop_allSuccess (getPendingRows db0) net _ now hsucc fuel
      (initState db0)
    · intro r hr h0
      have hrp : r ∈ getPendingRows db0 := by
        show r ∈ List.insertionSort rowLe (pendingFilter db0)
        rw [(List.perm_insertionSort rowLe (pendingFilter db0)).mem_iff]
        exact List.mem_filter.mpr ⟨hr, by simpa using h0⟩
      show r.obj_id ∈ ((getPendingRows db0).drop 0).map Row.obj_id
      rw [List.drop_zero]
      exact List.mem_map_of_mem Row.obj_id hrp
    · show (getPendingRows db0).length ≤ 0 + fuel
      omega
  have hfilter : pendingFilter ((runLoop (getPendingRows db0) net
      (fun k => logins (k + 1)) now fuel (initState db0)).db) = [] := by
    unfold pendingFilter
    rw [List.filter_eq_nil_iff]
    intro r hr
    simpa using hpend r hr
  have hgp : getPendingRows ((runLoop (getPendingRows db0) net
      (fun k => logins (k + 1)) now fuel (initState db0)).db) = [] := by
    show List.insertionSort rowLe (pendingFilter ((runLoop (getPendingRows db0)
      net (fun k => logins (k + 1)) now fuel (initState db0)).db)) = []
    rw [hfilter]
    rfl
  rw [runMain_login_true hlogin]
  refine ⟨hgp, ?_⟩
  intro logins' net' now' fuel'
  show (runMain ((runLoop (getPendingRows db0) net (fun k => logins (k + 1))
      now fuel (initState db0)).db) logins' net' now' fuel').attemptedIds = []
  by_cases hl : logins' 0 = true
  · rw [runMain_login_true hl]
    show (runLoop (getPendingRows ((runLoop (getPendingRows db0) net
        (fun k => logins (k + 1)) now fuel (initState db0)).db)) net'
        (fun k => logins' (k + 1)) now' fuel'
        (initState _)).attemptedIds = []
    rw [hgp, runLoop_of_done (Nat.zero_le _)]
    rfl
  · unfold runMain
    rw [Bool.not_eq_true] at hl
    rw [hl, if_neg Bool.false_ne_true]

/-- Witness for C3 (amended): one pending record, first run succeeding with
identifier 7; the second run, even against a persistently failing service,
attempts nothing. -/
theorem claim3_amended_idempotence_witness :
    (runMain (runMain [rowA] (fun _ => true) (fun _ => .ok (some 7))
        "t" 1).finalDb
      (fun _ => true) (fun _ => .httpError 500) "u" 3).attemptedIds = [] :=
  (claim3_amended_idempotence [rowA] (fun _ => true)
      (fun _ => .ok (some 7)) "t" 1
      (fun _ => ⟨7, rfl, by decide⟩) rfl (by decide)).2
    (fun _ => true) (fun _ => .httpError 500) "u" 3

end DocuwareMigration
